import Mathlib

/-!
Verification development for the two-owner account adapter
(`src/pages/Account/account-api/account-api.ts`).

The adapter is embedded shallowly:

* byte strings (TS hex strings / `BytesLike`) become `List Nat`;
* the external collaborators (the ethers wallet signing primitive, the
  Base Operation API authorization-hash function, the phantom-account
  predicate, the chain nonce read, the wallet address derivation and the
  typechain `createAccount` selector) become explicit function/value
  parameters of the embedded operations;
* `defaultAbiCoder.encode(['bytes','bytes'], ...)` is embedded as a real
  ABI head/tail tuple encoder over byte lists, together with the matching
  decoder, so that ordering claims about the assembled signature are
  meaningful;
* TS `async` methods that perform no internal concurrency become plain
  functions; fallible operations return `Except String`.

All definitions are translated from the source file; `Config` (the
repository's `exconfig`, not under `src/`) enters only through the module
constant `FACTORY_ADDRESS`, which is modelled as a function of an
arbitrary configured string (the JS `||` fallback behaviour needs nothing
else about the config module).
-/

/-- Byte strings (the embedding of TS hex strings / `BytesLike`). -/
abbrev Bytes := List Nat

/-- Big-endian base-256 representation of `n`, fixed width `k` bytes
(the low `8 * k` bits of `n`). -/
def natToBE (k n : Nat) : Bytes :=
  (List.range k).map fun i => n / 256 ^ (k - 1 - i) % 256

/-- Read a big-endian byte string as a natural number. -/
def beToNat (w : Bytes) : Nat :=
  w.foldl (fun acc b => acc * 256 + b) 0

/-- One 32-byte ABI word. -/
def natToWord (n : Nat) : Bytes := natToBE 32 n

/-- Zero padding that extends a payload of `n` bytes to a multiple of 32. -/
def padLen (n : Nat) : Nat := (32 - n % 32) % 32

/-- Tail encoding of one dynamic `bytes` value: length word, payload,
zero padding to a word boundary. -/
def encTail (b : Bytes) : Bytes :=
  natToWord b.length ++ (b ++ List.replicate (padLen b.length) 0)

/-- `defaultAbiCoder.encode(['bytes','bytes'], [a, b])`: two offset words
(relative to the start of the tuple) followed by the two tails. -/
def abiEncodeBytes2 (a b : Bytes) : Bytes :=
  natToWord 64 ++
    (natToWord (96 + (a.length + padLen a.length)) ++ (encTail a ++ encTail b))

/-- Read the 32-byte word of `data` starting at byte offset `off`. -/
def readWord (data : Bytes) (off : Nat) : Nat :=
  beToNat ((data.drop off).take 32)

/-- ABI decoding of `data` as the tuple `(bytes, bytes)`: follow the two
offset words, read each length word, extract each payload. -/
def abiDecodeBytes2 (data : Bytes) : Bytes × Bytes :=
  let off1 := readWord data 0
  let off2 := readWord data 32
  let len1 := readWord data off1
  let len2 := readWord data off2
  ((data.drop (off1 + 32)).take len1, (data.drop (off2 + 32)).take len2)

/-- Value of a hex digit; `none` for any other character. -/
def hexDigitVal (c : Char) : Option Nat :=
  if c.isDigit then some (c.toNat - 48)
  else if 97 ≤ c.toNat ∧ c.toNat ≤ 102 then some (c.toNat - 87)
  else if 65 ≤ c.toNat ∧ c.toNat ≤ 70 then some (c.toNat - 55)
  else none

/-- Numeric value of a hex string such as `0x6c0e...`; non-hex characters
(the `0x` prefix's `x` included) contribute nothing, the empty string has
value `0`. -/
def parseHexNat (s : String) : Nat :=
  s.data.foldl
    (fun acc c =>
      match hexDigitVal c with
      | some d => 16 * acc + d
      | none => acc)
    0

/-- The 160-bit value an address string denotes in ABI encoding; the
empty string denotes zero. -/
def addressValue (s : String) : Nat := parseHexNat s % 2 ^ 160

/-- The 20 raw bytes of an address string (the bytes `hexConcat`
contributes for `this.factory.address`). -/
def addressBytes (s : String) : Bytes := natToBE 20 (addressValue s)

/-- `factory.interface.encodeFunctionData('createAccount', [o1, o2, index])`:
the 4-byte selector supplied by the contract interface, then the three
statically encoded arguments `(address, address, uint256)`. -/
def encodeCreateAccount (selector : Bytes) (o1 o2 : String) (index : Nat) :
    Bytes :=
  selector ++
    (natToWord (addressValue o1) ++
      (natToWord (addressValue o2) ++ natToWord index))

/-- The local signing wallet (`ethers.Wallet`); only its private key is
state, signing and address derivation are the external primitives. -/
structure Wallet where
  privateKey : String
deriving Repr, DecidableEq

/-- The embedding of `UserOperationStruct`.  `preVerificationGas` is a
rational because `createUnsignedUserOp` scales it by the JS float `2.5`
(exact in binary floating point for all realistic gas magnitudes). -/
structure UserOperationStruct where
  sender : String
  nonce : Nat
  initCode : Bytes
  callData : Bytes
  callGasLimit : Nat
  verificationGasLimit : Nat
  preVerificationGas : ℚ
  maxFeePerGas : Nat
  maxPriorityFeePerGas : Nat
  paymasterAndData : Bytes
  signature : Bytes
deriving Repr, DecidableEq

/-- The second-owner context passed to `signUserOpWithContext`:
`{ signedMessage }`, the second owner's raw signature bytes. -/
structure SigningContext where
  signedMessage : Bytes
deriving Repr, DecidableEq

/-- The ad hoc message-signing request (`MessageSigningRequest`); its
`rawSigningData` may be absent. -/
structure MessageSigningRequest where
  rawSigningData : Option Bytes
deriving Repr, DecidableEq

/-- Serialized state `{ privateKey, ownerTwo }`. -/
structure SerializedState where
  privateKey : String
  ownerTwo : String
deriving Repr, DecidableEq

/-- The creation context (`{ address }`) a counterpart session supplies. -/
structure CreationContext where
  address : String
deriving Repr, DecidableEq

/-- Constructor parameters (`AccountApiParamsType`): an optional
deserialized state and an optional creation context. -/
structure AccountApiParams where
  deserializeState : Option SerializedState
  context : Option CreationContext
deriving Repr, DecidableEq

/-- Instance state of the `TwoOwnerAccountAPI` class.  The memoized
contract bindings are represented by the addresses they were connected
to (`none` before first use). -/
structure TwoOwnerAccountAPI where
  name : String
  factoryAddress : Option String
  ownerOne : Wallet
  ownerTwo : String
  index : Nat
  accountContract : Option String
  factory : Option String
deriving Repr, DecidableEq

/-- The hardcoded fallback factory address. -/
def defaultFactoryAddress : String :=
  "0x6c0ec05Ad55C8B8427119ce50b6087E7B0C9c23e"

/-- `Config.factory_address || '0x6c0e...'`: the configured value when it
is truthy (a non-empty string), the hardcoded default otherwise. -/
def FACTORY_ADDRESS (configFactoryAddress : String) : String :=
  if configFactoryAddress = "" then defaultFactoryAddress
  else configFactoryAddress

/-- `params.context?.address || ''`. -/
def contextAddressOrEmpty : Option CreationContext → String
  | some c => c.address
  | none => ""

/-- The constructor.  `freshWallet` stands for the wallet
`ethers.Wallet.createRandom()` would produce; the JS conditionals
`params.deserializeState?.privateKey ? _ : _` and
`params.deserializeState?.ownerTwo ? _ : _` test string truthiness, so a
present but empty field takes the fallback branch. -/
def mkTwoOwnerAccountAPI (configFactoryAddress : String)
    (freshWallet : Wallet) (params : AccountApiParams) :
    TwoOwnerAccountAPI :=
  { name := "SimpleAccountAPI"
    factoryAddress := some (FACTORY_ADDRESS configFactoryAddress)
    ownerOne :=
      match params.deserializeState with
      | some st =>
          if st.privateKey = "" then freshWallet
          else { privateKey := st.privateKey }
      | none => freshWallet
    ownerTwo :=
      match params.deserializeState with
      | some st =>
          if st.ownerTwo = "" then contextAddressOrEmpty params.context
          else st.ownerTwo
      | none => contextAddressOrEmpty params.context
    index := 0
    accountContract := none
    factory := none }

/-- `serialize()`: the persisted `{ privateKey, ownerTwo }`. -/
def serialize (api : TwoOwnerAccountAPI) : SerializedState :=
  { privateKey := api.ownerOne.privateKey, ownerTwo := api.ownerTwo }

/-- The factory binding `getAccountInitCode` uses: the memoized binding
if present, else a fresh connection to `factoryAddress` when that is set
and non-empty, else nothing (the error branch). -/
def resolveFactory (api : TwoOwnerAccountAPI) : Option String :=
  match api.factory with
  | some f => some f
  | none =>
      match api.factoryAddress with
      | some fa => if fa = "" then none else some fa
      | none => none

/-- `getAccountInitCode()`: `hexConcat([factory.address,
encodeFunctionData('createAccount', [ownerOne address, ownerTwo, index])])`,
or the thrown `Error('no factory to get initCode')`.  `selector` is the
4-byte `createAccount` selector of the typechain interface and
`addressOfKey` the wallet address derivation (`ownerOne.getAddress()`). -/
def getAccountInitCode (api : TwoOwnerAccountAPI) (selector : Bytes)
    (addressOfKey : String → String) : Except String Bytes :=
  match resolveFactory api with
  | some f =>
      .ok (addressBytes f ++
        encodeCreateAccount selector (addressOfKey api.ownerOne.privateKey)
          api.ownerTwo api.index)
  | none => .error "no factory to get initCode"

/-- `getNonce()`: `0` when `checkAccountPhantom()` holds, otherwise the
result of the chain read `accountContract.getNonce()` (a value or a
propagated network error). -/
def getNonce (phantom : Bool) (chainNonce : Except String Nat) :
    Except String Nat :=
  if phantom then .ok 0 else chainNonce

/-- `signOwnerOne(userOpHash)`: the local wallet's signed-message
signature over the raw hash bytes (`signMessage(arrayify(userOpHash))`);
`sign` is the ethers signing primitive, a function of the key and the
message bytes. -/
def signOwnerOne (api : TwoOwnerAccountAPI) (sign : String → Bytes → Bytes)
    (userOpHash : Bytes) : Bytes :=
  sign api.ownerOne.privateKey userOpHash

/-- `signMessage(context, request)`: signs
`request?.rawSigningData || ''` with the local key; an absent request or
absent data signs the empty byte string. -/
def signMessage (api : TwoOwnerAccountAPI) (sign : String → Bytes → Bytes)
    (request : Option MessageSigningRequest) : Bytes :=
  sign api.ownerOne.privateKey
    ((request.bind MessageSigningRequest.rawSigningData).getD [])

/-- `signUserOpWithContext(userOp, context)`: a copy of `userOp` whose
signature is the ABI `(bytes, bytes)` encoding of the local signature
over `getUserOpHash(userOp)` and `context.signedMessage`, in that order.
`getUserOpHash` is the Base Operation API authorization-hash function.
The spread `{ ...userOp, signature }` builds a fresh record, so in this
pure embedding the input operation is untouched by construction. -/
def signUserOpWithContext (api : TwoOwnerAccountAPI)
    (sign : String → Bytes → Bytes)
    (getUserOpHash : UserOperationStruct → Bytes)
    (userOp : UserOperationStruct) (context : SigningContext) :
    UserOperationStruct :=
  { userOp with
    signature :=
      abiEncodeBytes2 (signOwnerOne api sign (getUserOpHash userOp))
        context.signedMessage }

/-- `createUnsignedUserOp(info)`: the operation the base API built for
`info` (here the parameter `base`), with `preVerificationGas` scaled by
`2.5`. -/
def createUnsignedUserOp (base : UserOperationStruct) :
    UserOperationStruct :=
  { base with preVerificationGas := base.preVerificationGas * (5 / 2 : ℚ) }

/-- `getUserOpHashToSign(userOp)`: a passthrough to `getUserOpHash`. -/
def getUserOpHashToSign (getUserOpHash : UserOperationStruct → Bytes)
    (userOp : UserOperationStruct) : Bytes :=
  getUserOpHash userOp

/-- C2: the hash exposed by `getUserOpHashToSign` is exactly the
authorization hash over which `signUserOpWithContext` produces the local
signature for the same operation: both delegate to the same Base
Operation API hash function. -/
theorem getUserOpHashToSign_matches_signing_hash :
    ∀ (api : TwoOwnerAccountAPI) (sign : String → Bytes → Bytes)
      (getUserOpHash : UserOperationStruct → Bytes)
      (userOp : UserOperationStruct) (context : SigningContext),
      getUserOpHashToSign getUserOpHash userOp = getUserOpHash userOp ∧
      (signUserOpWithContext api sign getUserOpHash userOp context).signature
        = abiEncodeBytes2
            (signOwnerOne api sign (getUserOpHashToSign getUserOpHash userOp))
            context.signedMessage := by
  intros
  exact ⟨rfl, rfl⟩

/-- C4: when the phantom predicate holds `getNonce` returns `0` whatever
the chain read would report; otherwise it returns the chain read
unchanged, so a chain-read failure propagates unmodified. -/
theorem getNonce_phantom_zero_else_chain :
    ∀ (phantom : Bool) (chainNonce : Except String Nat),
      (phantom = true → getNonce phantom chainNonce = .ok 0) ∧
      (phantom = false → getNonce phantom chainNonce = chainNonce) := by
  intro phantom chainNonce
  constructor <;> intro h <;> simp [getNonce, h]

/-- Witness for C4: a phantom account reports nonce 0 even when the chain
read fails, and a deployed account propagates that same failure. -/
theorem getNonce_phantom_zero_else_chain_witness :
    getNonce true (.error "network down") = .ok 0 ∧
    getNonce false (.error "network down") = .error "network down" :=
  ⟨(getNonce_phantom_zero_else_chain true (.error "network down")).1 rfl,
   (getNonce_phantom_zero_else_chain false (.error "network down")).2 rfl⟩

/-- C5: every operation built by `createUnsignedUserOp` carries a
`preVerificationGas` equal to exactly 2.5 times the value the base
builder produced; the universal quantification over the base operation
records that the adjustment is unconditional. -/
theorem createUnsignedUserOp_preVerificationGas_scaled :
    ∀ base : UserOperationStruct,
      (createUnsignedUserOp base).preVerificationGas
        = (5 / 2 : ℚ) * base.preVerificationGas := by
  intro base
  show base.preVerificationGas * (5 / 2 : ℚ) = (5 / 2 : ℚ) * base.preVerificationGas
  ring

/-- C8: `signUserOpWithContext` is deterministic — any two instances
holding the same local key produce byte-identical signature fields from
the same operation, context, signing primitive and hash function (the
output depends on no other instance state). -/
theorem signUserOpWithContext_deterministic :
    ∀ (apiA apiB : TwoOwnerAccountAPI) (sign : String → Bytes → Bytes)
      (getUserOpHash : UserOperationStruct → Bytes)
      (userOp : UserOperationStruct) (context : SigningContext),
      apiA.ownerOne.privateKey = apiB.ownerOne.privateKey →
      (signUserOpWithContext apiA sign getUserOpHash userOp context).signature
        = (signUserOpWithContext apiB sign getUserOpHash userOp context).signature := by
  intro apiA apiB sign getUserOpHash userOp context hkey
  simp [signUserOpWithContext, signOwnerOne, hkey]

/-- Witness for C8: two instances differing in every field but the local
key assemble the same signature bytes. -/
theorem signUserOpWithContext_deterministic_witness :
    (⟨"SimpleAccountAPI", some "0x11", ⟨"k"⟩, "0x22", 0, none, none⟩
        : TwoOwnerAccountAPI).ownerOne.privateKey
      = (⟨"other", none, ⟨"k"⟩, "", 7, some "0x9", some "0x8"⟩
        : TwoOwnerAccountAPI).ownerOne.privateKey ∧
    (signUserOpWithContext
        ⟨"SimpleAccountAPI", some "0x11", ⟨"k"⟩, "0x22", 0, none, none⟩
        (fun k m => k.length :: m) (fun _ => [5])
        ⟨"0xs", 0, [], [], 0, 0, 0, 0, 0, [], []⟩ ⟨[9]⟩).signature
      = (signUserOpWithContext
        ⟨"other", none, ⟨"k"⟩, "", 7, some "0x9", some "0x8"⟩
        (fun k m => k.length :: m) (fun _ => [5])
        ⟨"0xs", 0, [], [], 0, 0, 0, 0, 0, [], []⟩ ⟨[9]⟩).signature :=
  ⟨rfl, signUserOpWithContext_deterministic _ _ _ _ _ _ rfl⟩

/-- C9: the `ConfigurationError` branch of `getAccountInitCode` is
unreachable for any instance built by the public constructor: whatever
the configured factory string, the JS fallback makes `FACTORY_ADDRESS`
non-empty, the constructor stores it, and init-code construction
succeeds. -/
theorem getAccountInitCode_constructed_never_errors :
    ∀ (configFactoryAddress : String) (freshWallet : Wallet)
      (params : AccountApiParams) (selector : Bytes)
      (addressOfKey : String → String),
      ∃ code,
        getAccountInitCode (mkTwoOwnerAccountAPI configFactoryAddress freshWallet params)
          selector addressOfKey = .ok code := by
  intro cfg freshWallet params selector addressOfKey
  have hne : FACTORY_ADDRESS cfg ≠ "" := by
    rcases eq_or_ne cfg "" with h | h
    · simp only [FACTORY_ADDRESS, h, if_pos rfl]
      decide
    · simp [FACTORY_ADDRESS, h]
  refine ⟨addressBytes (FACTORY_ADDRESS cfg) ++
    encodeCreateAccount selector
      (addressOfKey (mkTwoOwnerAccountAPI cfg freshWallet params).ownerOne.privateKey)
      (mkTwoOwnerAccountAPI cfg freshWallet params).ownerTwo
      (mkTwoOwnerAccountAPI cfg freshWallet params).index, ?_⟩
  simp [getAccountInitCode, resolveFactory, mkTwoOwnerAccountAPI, hne]

/-- C10: `signMessage` with an absent request, or a request carrying no
raw signing data, does not fail: it returns the local signature over the
empty byte string. -/
theorem signMessage_absent_request_signs_empty :
    ∀ (api : TwoOwnerAccountAPI) (sign : String → Bytes → Bytes)
      (request : Option MessageSigningRequest),
      request = none ∨ (∃ r, request = some r ∧ r.rawSigningData = none) →
      signMessage api sign request = sign api.ownerOne.privateKey [] := by
  intro api sign request h
  rcases h with h | ⟨r, hr, hd⟩
  · simp [signMessage, h]
  · subst hr
    simp [signMessage, hd]

/-- Witness for C10: a present request with absent data yields the local
signature over the empty byte string. -/
theorem signMessage_absent_request_signs_empty_witness :
    ((some ⟨none⟩ : Option MessageSigningRequest) = none ∨
      (∃ r, (some ⟨none⟩ : Option MessageSigningRequest) = some r ∧
        r.rawSigningData = none)) ∧
    signMessage (⟨"SimpleAccountAPI", none, ⟨"k"⟩, "", 0, none, none⟩
        : TwoOwnerAccountAPI)
      (fun k m => m ++ [k.length]) (some ⟨none⟩) = [1] :=
  ⟨Or.inr ⟨⟨none⟩, rfl, rfl⟩,
   (signMessage_absent_request_signs_empty _ _ _
      (Or.inr ⟨⟨none⟩, rfl, rfl⟩)).trans rfl⟩

/-- C3: whenever a factory is resolvable, `getAccountInitCode` returns
the factory address bytes followed by the encoded `createAccount(ownerOne,
ownerTwo, index)` call — the factory address bytes lead the result — and
when none is resolvable it fails with the configuration error. -/
theorem getAccountInitCode_factory_concat_or_error :
    ∀ (api : TwoOwnerAccountAPI) (selector : Bytes)
      (addressOfKey : String → String),
      (∀ f, resolveFactory api = some f →
        getAccountInitCode api selector addressOfKey =
          .ok (addressBytes f ++
            encodeCreateAccount selector (addressOfKey api.ownerOne.privateKey)
              api.ownerTwo api.index) ∧
        ∃ rest, getAccountInitCode api selector addressOfKey =
          .ok (addressBytes f ++ rest)) ∧
      (resolveFactory api = none →
        getAccountInitCode api selector addressOfKey =
          .error "no factory to get initCode") := by
  intro api selector addressOfKey
  constructor
  · intro f hf
    constructor
    · simp [getAccountInitCode, hf]
    · exact ⟨encodeCreateAccount selector (addressOfKey api.ownerOne.privateKey)
          api.ownerTwo api.index, by simp [getAccountInitCode, hf]⟩
  · intro hf
    simp [getAccountInitCode, hf]

/-- Witness for C3: on a fresh instance with factory address `0x11` the
init code is the factory bytes followed by the encoded call. -/
theorem getAccountInitCode_factory_concat_or_error_witness :
    resolveFactory (⟨"SimpleAccountAPI", some "0x11", ⟨"k"⟩, "0x22", 0,
        none, none⟩ : TwoOwnerAccountAPI) = some "0x11" ∧
    getAccountInitCode (⟨"SimpleAccountAPI", some "0x11", ⟨"k"⟩, "0x22", 0,
        none, none⟩ : TwoOwnerAccountAPI) [1, 2, 3, 4] (fun _ => "0x33") =
      .ok (addressBytes "0x11" ++
        encodeCreateAccount [1, 2, 3, 4] "0x33" "0x22" 0) :=
  ⟨rfl,
   ((getAccountInitCode_factory_concat_or_error
      ⟨"SimpleAccountAPI", some "0x11", ⟨"k"⟩, "0x22", 0, none, none⟩
      [1, 2, 3, 4] (fun _ => "0x33")).1 "0x11" rfl).1⟩

/-- C6: restoring an instance from its own serialized state (the restore
construction path, with no creation context) preserves the local key —
hence the derived local-owner address for any address derivation — and
the second-owner address. -/
theorem serialize_restore_roundtrip :
    ∀ (api : TwoOwnerAccountAPI) (configFactoryAddress : String)
      (freshWallet : Wallet) (addressOfKey : String → String),
      api.ownerOne.privateKey ≠ "" →
      (mkTwoOwnerAccountAPI configFactoryAddress freshWallet
          { deserializeState := some (serialize api),
            context := none }).ownerOne.privateKey
        = api.ownerOne.privateKey ∧
      addressOfKey
          (mkTwoOwnerAccountAPI configFactoryAddress freshWallet
            { deserializeState := some (serialize api),
              context := none }).ownerOne.privateKey
        = addressOfKey api.ownerOne.privateKey ∧
      (mkTwoOwnerAccountAPI configFactoryAddress freshWallet
          { deserializeState := some (serialize api),
            context := none }).ownerTwo
        = api.ownerTwo := by
  intro api cfg freshWallet addressOfKey h
  have hkey : (mkTwoOwnerAccountAPI cfg freshWallet
      { deserializeState := some (serialize api),
        context := none }).ownerOne.privateKey = api.ownerOne.privateKey := by
    simp [mkTwoOwnerAccountAPI, serialize, h]
  refine ⟨hkey, by rw [hkey], ?_⟩
  rcases eq_or_ne api.ownerTwo "" with h2 | h2 <;>
    simp [mkTwoOwnerAccountAPI, serialize, contextAddressOrEmpty, h2]

/-- Witness for C6: a concrete instance round-trips through its
serialized state. -/
theorem serialize_restore_roundtrip_witness :
    (⟨"SimpleAccountAPI", some "0x11", ⟨"k"⟩, "0x22", 0, none, none⟩
        : TwoOwnerAccountAPI).ownerOne.privateKey ≠ "" ∧
    (mkTwoOwnerAccountAPI "" ⟨"fresh"⟩
        { deserializeState :=
            some (serialize (⟨"SimpleAccountAPI", some "0x11", ⟨"k"⟩,
              "0x22", 0, none, none⟩ : TwoOwnerAccountAPI)),
          context := none }).ownerOne.privateKey = "k" ∧
    (mkTwoOwnerAccountAPI "" ⟨"fresh"⟩
        { deserializeState :=
            some (serialize (⟨"SimpleAccountAPI", some "0x11", ⟨"k"⟩,
              "0x22", 0, none, none⟩ : TwoOwnerAccountAPI)),
          context := none }).ownerTwo = "0x22" :=
  ⟨by decide,
   (serialize_restore_roundtrip _ "" ⟨"fresh"⟩ id (by decide)).1,
   (serialize_restore_roundtrip _ "" ⟨"fresh"⟩ id (by decide)).2.2⟩

/-- C7: with the second-owner address unset (the empty string) and a
resolvable factory, init-code construction still succeeds: the `ownerTwo`
argument is encoded as the zero address word, no local error is raised. -/
theorem getAccountInitCode_empty_ownerTwo_succeeds :
    ∀ (api : TwoOwnerAccountAPI) (selector : Bytes)
      (addressOfKey : String → String) (fa : String),
      api.ownerTwo = "" → api.factory = none →
      api.factoryAddress = some fa → fa ≠ "" →
      getAccountInitCode api selector addressOfKey =
        .ok (addressBytes fa ++
          (selector ++
            (natToWord (addressValue (addressOfKey api.ownerOne.privateKey)) ++
              (natToWord 0 ++ natToWord api.index)))) := by
  intro api selector addressOfKey fa h2 hfac hfa hne
  have hzero : addressValue "" = 0 := by decide
  simp [getAccountInitCode, resolveFactory, hfac, hfa, hne,
    encodeCreateAccount, h2, hzero]

/-- Witness for C7: a concrete instance with empty `ownerTwo` yields
init code whose `ownerTwo` slot is the zero word. -/
theorem getAccountInitCode_empty_ownerTwo_succeeds_witness :
    ((⟨"SimpleAccountAPI", some "0x11", ⟨"k"⟩, "", 0, none, none⟩
        : TwoOwnerAccountAPI).ownerTwo = "" ∧
      (⟨"SimpleAccountAPI", some "0x11", ⟨"k"⟩, "", 0, none, none⟩
        : TwoOwnerAccountAPI).factory = none) ∧
    getAccountInitCode (⟨"SimpleAccountAPI", some "0x11", ⟨"k"⟩, "", 0,
        none, none⟩ : TwoOwnerAccountAPI) [1, 2, 3, 4] (fun _ => "0x33") =
      .ok (addressBytes "0x11" ++
        ([1, 2, 3, 4] ++
          (natToWord (addressValue "0x33") ++
            (natToWord 0 ++ natToWord 0)))) :=
  ⟨⟨rfl, rfl⟩,
   getAccountInitCode_empty_ownerTwo_succeeds _ _ _ "0x11" rfl rfl rfl
     (by decide)⟩

/-- Appending one byte shifts the accumulated big-endian value. -/
theorem beToNat_append_single (l : Bytes) (x : Nat) :
    beToNat (l ++ [x]) = beToNat l * 256 + x := by
  simp [beToNat, List.foldl_append]

/-- `natToBE` always produces exactly `k` bytes. -/
theorem length_natToBE (k n : Nat) : (natToBE k n).length = k := by
  simp [natToBE]

/-- An ABI word is 32 bytes. -/
theorem length_natToWord (n : Nat) : (natToWord n).length = 32 := by
  simp [natToWord, length_natToBE]

/-- Peeling the lowest byte off a fixed-width big-endian encoding. -/
theorem natToBE_succ (k n : Nat) :
    natToBE (k + 1) n = natToBE k (n / 256) ++ [n % 256] := by
  unfold natToBE
  rw [List.range_succ, List.map_append]
  congr 1
  · apply List.map_congr_left
    intro i hi
    have hik : i < k := List.mem_range.mp hi
    have h1 : k + 1 - 1 - i = (k - 1 - i) + 1 := by omega
    rw [h1, pow_succ', ← Nat.div_div_eq_div_mul]
  · simp

/-- Reading back a fixed-width big-endian encoding recovers the value
modulo the width. -/
theorem beToNat_natToBE (k n : Nat) :
    beToNat (natToBE k n) = n % 256 ^ k := by
  induction k generalizing n with
  | zero => simp [natToBE, beToNat, Nat.mod_one]
  | succ k ih =>
      rw [natToBE_succ, beToNat_append_single, ih, pow_succ', Nat.mod_mul]
      generalize n / 256 % 256 ^ k = X
      generalize n % 256 = Y
      ring
/-- A value below `2 ^ 256` survives the word round trip. -/
theorem beToNat_natToWord (n : Nat) (h : n < 2 ^ 256) :
    beToNat (natToWord n) = n := by
  have h2 : (256 : Nat) ^ 32 = 2 ^ 256 := by norm_num
  rw [natToWord, beToNat_natToBE, h2, Nat.mod_eq_of_lt h]

/-- Taking exactly the head block of an append. -/
theorem take_len_append (l1 l2 : Bytes) {n : Nat} (h : n = l1.length) :
    (l1 ++ l2).take n = l1 := by
  subst h
  exact List.take_left l1 l2

/-- Dropping exactly the head block of an append. -/
theorem drop_len_append (l1 l2 : Bytes) {n : Nat} (h : n = l1.length) :
    (l1 ++ l2).drop n = l2 := by
  subst h
  exact List.drop_left l1 l2

/-- Word padding adds fewer than 32 bytes. -/
theorem padLen_lt (n : Nat) : padLen n < 32 := by
  unfold padLen
  omega

/-- Decoding inverts encoding for the `(bytes, bytes)` tuple coder, for
any payloads of bounded length. -/
theorem abiDecode_abiEncode (a b : Bytes)
    (ha : a.length < 2 ^ 64) (hb : b.length < 2 ^ 64) :
    abiDecodeBytes2 (abiEncodeBytes2 a b) = (a, b) := by
  have hpa : padLen a.length < 32 := padLen_lt _
  have hfact : (2 : Nat) ^ 64 + 128 ≤ 2 ^ 256 := by norm_num
  have hbound : 96 + (a.length + padLen a.length) < 2 ^ 256 := by omega
  have haA : a.length < 2 ^ 256 := by omega
  have hbB : b.length < 2 ^ 256 := by omega
  have hdata1 : abiEncodeBytes2 a b
      = natToWord 64 ++
          (natToWord (96 + (a.length + padLen a.length)) ++
            (encTail a ++ encTail b)) := rfl
  have hdata2 : abiEncodeBytes2 a b
      = (natToWord 64 ++ natToWord (96 + (a.length + padLen a.length))) ++
          (natToWord a.length ++
            (a ++ (List.replicate (padLen a.length) 0 ++
              (natToWord b.length ++
                (b ++ List.replicate (padLen b.length) 0))))) := by
    simp [abiEncodeBytes2, encTail, List.append_assoc]
  have hdata4 : abiEncodeBytes2 a b
      = ((natToWord 64 ++ natToWord (96 + (a.length + padLen a.length))) ++
            natToWord a.length) ++
          (a ++ (List.replicate (padLen a.length) 0 ++
            (natToWord b.length ++
              (b ++ List.replicate (padLen b.length) 0)))) := by
    simp [abiEncodeBytes2, encTail, List.append_assoc]
  have hdata5 : abiEncodeBytes2 a b
      = (((natToWord 64 ++ natToWord (96 + (a.length + padLen a.length))) ++
            natToWord a.length) ++
            (a ++ List.replicate (padLen a.length) 0)) ++
          (natToWord b.length ++
            (b ++ List.replicate (padLen b.length) 0)) := by
    simp [abiEncodeBytes2, encTail, List.append_assoc]
  have hdata6 : abiEncodeBytes2 a b
      = ((((natToWord 64 ++ natToWord (96 + (a.length + padLen a.length))) ++
            natToWord a.length) ++
            (a ++ List.replicate (padLen a.length) 0)) ++
            natToWord b.length) ++
          (b ++ List.replicate (padLen b.length) 0) := by
    simp [abiEncodeBytes2, encTail, List.append_assoc]
  have hoff1 : readWord (abiEncodeBytes2 a b) 0 = 64 := by
    rw [readWord, List.drop_zero, hdata1,
      take_len_append _ _ (length_natToWord 64).symm,
      beToNat_natToWord 64 (by norm_num)]
  have hoff2 : readWord (abiEncodeBytes2 a b) 32
      = 96 + (a.length + padLen a.length) := by
    rw [readWord, hdata1, drop_len_append _ _ (length_natToWord 64).symm,
      take_len_append _ _ (length_natToWord _).symm,
      beToNat_natToWord _ hbound]
  have h64len : (64 : Nat)
      = (natToWord 64 ++
          natToWord (96 + (a.length + padLen a.length))).length := by
    simp [length_natToWord]
  have hlen1 : readWord (abiEncodeBytes2 a b) 64 = a.length := by
    rw [readWord, hdata2, drop_len_append _ _ h64len,
      take_len_append _ _ (length_natToWord _).symm,
      beToNat_natToWord _ haA]
  have h96len : (64 + 32 : Nat)
      = ((natToWord 64 ++
            natToWord (96 + (a.length + padLen a.length))) ++
          natToWord a.length).length := by
    simp [length_natToWord]
  have hpay1 : ((abiEncodeBytes2 a b).drop (64 + 32)).take a.length = a := by
    rw [hdata4, drop_len_append _ _ h96len, take_len_append _ _ rfl]
  have hoff2len : (96 + (a.length + padLen a.length) : Nat)
      = ((((natToWord 64 ++
              natToWord (96 + (a.length + padLen a.length))) ++
            natToWord a.length) ++
            (a ++ List.replicate (padLen a.length) 0))).length := by
    simp [length_natToWord]
    omega
  have hlen2 : readWord (abiEncodeBytes2 a b)
      (96 + (a.length + padLen a.length)) = b.length := by
    rw [readWord, hdata5, drop_len_append _ _ hoff2len,
      take_len_append _ _ (length_natToWord _).symm,
      beToNat_natToWord _ hbB]
  have hoff2p32len : (96 + (a.length + padLen a.length) + 32 : Nat)
      = (((((natToWord 64 ++
              natToWord (96 + (a.length + padLen a.length))) ++
            natToWord a.length) ++
            (a ++ List.replicate (padLen a.length) 0)) ++
            natToWord b.length)).length := by
    simp [length_natToWord]
    omega
  have hpay2 : ((abiEncodeBytes2 a b).drop
      (96 + (a.length + padLen a.length) + 32)).take b.length = b := by
    rw [hdata6, drop_len_append _ _ hoff2p32len, take_len_append _ _ rfl]
  simp only [abiDecodeBytes2]
  rw [hoff1, hoff2, hlen1, hlen2, hpay1, hpay2]

/-- C1: `signUserOpWithContext` returns an operation equal to its input
in every field except `signature`; that field is the ABI `(bytes, bytes)`
tuple encoding of the local signature over the operation's authorization
hash followed by `context.signedMessage`, in that order: decoding it
recovers exactly that ordered pair, and (when the two signatures differ)
the reversed pair does not match.  The embedding is pure, so the input
operation itself is untouched. -/
theorem signUserOpWithContext_assembles_ordered_tuple :
    ∀ (api : TwoOwnerAccountAPI) (sign : String → Bytes → Bytes)
      (getUserOpHash : UserOperationStruct → Bytes)
      (userOp : UserOperationStruct) (context : SigningContext),
      (sign api.ownerOne.privateKey (getUserOpHash userOp)).length < 2 ^ 64 →
      context.signedMessage.length < 2 ^ 64 →
      ((signUserOpWithContext api sign getUserOpHash userOp context).sender
          = userOp.sender ∧
        (signUserOpWithContext api sign getUserOpHash userOp context).nonce
          = userOp.nonce ∧
        (signUserOpWithContext api sign getUserOpHash userOp context).initCode
          = userOp.initCode ∧
        (signUserOpWithContext api sign getUserOpHash userOp context).callData
          = userOp.callData ∧
        (signUserOpWithContext api sign getUserOpHash userOp context).callGasLimit
          = userOp.callGasLimit ∧
        (signUserOpWithContext api sign getUserOpHash userOp context).verificationGasLimit
          = userOp.verificationGasLimit ∧
        (signUserOpWithContext api sign getUserOpHash userOp context).preVerificationGas
          = userOp.preVerificationGas ∧
        (signUserOpWithContext api sign getUserOpHash userOp context).maxFeePerGas
          = userOp.maxFeePerGas ∧
        (signUserOpWithContext api sign getUserOpHash userOp context).maxPriorityFeePerGas
          = userOp.maxPriorityFeePerGas ∧
        (signUserOpWithContext api sign getUserOpHash userOp context).paymasterAndData
          = userOp.paymasterAndData) ∧
      (signUserOpWithContext api sign getUserOpHash userOp context).signature
        = abiEncodeBytes2 (signOwnerOne api sign (getUserOpHash userOp))
            context.signedMessage ∧
      abiDecodeBytes2
          (signUserOpWithContext api sign getUserOpHash userOp context).signature
        = (signOwnerOne api sign (getUserOpHash userOp),
            context.signedMessage) ∧
      (signOwnerOne api sign (getUserOpHash userOp) ≠ context.signedMessage →
        abiDecodeBytes2
            (signUserOpWithContext api sign getUserOpHash userOp context).signature
          ≠ (context.signedMessage,
              signOwnerOne api sign (getUserOpHash userOp))) := by
  intro api sign getUserOpHash userOp context hla hlb
  have hdec : abiDecodeBytes2
      (abiEncodeBytes2 (signOwnerOne api sign (getUserOpHash userOp))
        context.signedMessage)
      = (signOwnerOne api sign (getUserOpHash userOp),
          context.signedMessage) :=
    abiDecode_abiEncode _ _ hla hlb
  refine ⟨⟨rfl, rfl, rfl, rfl, rfl, rfl, rfl, rfl, rfl, rfl⟩, rfl, hdec, ?_⟩
  intro hne heq
  have hpair : (signOwnerOne api sign (getUserOpHash userOp),
      context.signedMessage)
      = (context.signedMessage,
          signOwnerOne api sign (getUserOpHash userOp)) := by
    rw [← hdec]
    exact heq
  exact hne (congrArg Prod.fst hpair)

/-- Witness for C1: with a concrete key, signing primitive, hash function
and context, the assembled signature decodes to the ordered pair of the
local signature and the second owner's signature. -/
theorem signUserOpWithContext_assembles_ordered_tuple_witness :
    abiDecodeBytes2 ((signUserOpWithContext
        ⟨"SimpleAccountAPI", some "0x11", ⟨"k"⟩, "0x22", 0, none, none⟩
        (fun k m => k.length :: m) (fun _ => [5])
        ⟨"0xs", 0, [], [], 0, 0, 0, 0, 0, [], []⟩ ⟨[9]⟩).signature)
      = ([1, 5], [9]) :=
  ((signUserOpWithContext_assembles_ordered_tuple
      ⟨"SimpleAccountAPI", some "0x11", ⟨"k"⟩, "0x22", 0, none, none⟩
      (fun k m => k.length :: m) (fun _ => [5])
      ⟨"0xs", 0, [], [], 0, 0, 0, 0, 0, [], []⟩ ⟨[9]⟩
      (by decide) (by decide)).2.2.1).trans (by decide)
